import Mathlib

/-!
# CoverLetterGPT — formal verification of the memory/relevance subsystem

Shallow embedding, in Lean 4, of the parts of the repository
`aionlinux/CoverLetterGPT-Public` that the verified claims are about:

* `src/cover_letter_generator/temporal_manager.py`
  (`TemporalManager._calculate_event_status`),
* `src/cover_letter_generator/memory_core.py`
  (`MemoryCore.add_skill_memory`, `MemoryCore.get_current_temporal_events`),
* `src/cover_letter_generator/relevance_engine.py`
  (`RelevanceEngine.analyze_job_requirements`,
  `RelevanceEngine.score_skill_relevance`,
  `RelevanceEngine.score_style_relevance`,
  `RelevanceEngine.get_relevant_memories`),
* `src/cover_letter_generator/advanced_relevance_engine.py`
  (`SemanticMatcher.calculate_semantic_similarity`,
  `AdvancedRelevanceEngine.score_skill_comprehensive`).

Modelling conventions:

* Python `float` arithmetic is embedded as exact rational arithmetic (`ℚ`).
  All constants in the scoring code are small decimal literals and all
  operations are `+ - * / min max`, so the rational semantics coincides with
  the intended real-number reading of the code.
* Python `datetime` values are embedded as rational numbers counting days;
  `timedelta(days=k)` becomes the literal `k`.  Comparisons of `datetime`
  values are the total order on the time line, which the embedding preserves.
* Python strings are embedded as Lean `String`; `a in b` on strings is
  substring containment, `s.lower()` / `s.strip()` are ASCII lower-casing and
  whitespace trimming (all inputs exercised by the theorems are ASCII).
* Regular-expression matching is embedded per pattern: every pattern used by
  the embedded functions is a word-boundary-delimited literal phrase, a
  `stem + optional letter + optional colon + whitespace + capture` pattern, or
  one of the two special keywords `"c++"` / `".net"`, whose exact CPython
  (≥ 3.11) semantics is reproduced by a dedicated scanner below.
* Python `dict` is embedded as an association list in insertion order;
  `list.sort(key=..., reverse=True)` (a stable descending sort) is embedded
  as a stable insertion sort.
-/

namespace CoverLetterGPT

/-! ## Basic string machinery (Python `str` operations) -/

/-- ASCII lower-casing of one character (Python `str.lower` on ASCII). -/
def lowerChar (c : Char) : Char :=
  if 'A' ≤ c ∧ c ≤ 'Z' then Char.ofNat (c.toNat + 32) else c

/-- Python `s.lower()` (ASCII fragment). -/
def pyLower (s : String) : String :=
  ⟨s.data.map lowerChar⟩

/-- The whitespace characters of Python's `str.strip` / regex `\s`
(ASCII fragment): space, tab, newline, carriage return, vertical tab,
form feed. -/
def pyIsSpace (c : Char) : Bool :=
  c = ' ' ∨ c = '\t' ∨ c = '\n' ∨ c = '\r' ∨ c = '\x0b' ∨ c = '\x0c'

/-- Python `s.strip()` (ASCII fragment). -/
def pyStrip (s : String) : String :=
  ⟨((s.data.dropWhile pyIsSpace).reverse.dropWhile pyIsSpace).reverse⟩

/-- `sub` occurs as a contiguous run inside `l`. -/
def listInfixOf (sub : List Char) : List Char → Bool
  | [] => sub.isEmpty
  | c :: rest => sub.isPrefixOf (c :: rest) || listInfixOf sub rest

/-- Python `sub in hay` for strings: substring containment. -/
def pyIn (sub hay : String) : Bool :=
  listInfixOf sub.data hay.data

/-- Python `s[:200]` — the first 200 characters. -/
def pyTake200 (s : String) : String :=
  ⟨s.data.take 200⟩

/-- A regex word character `\w` (ASCII fragment): letter, digit or
underscore. -/
def isWordChar (c : Char) : Bool :=
  ('a' ≤ c ∧ c ≤ 'z') ∨ ('A' ≤ c ∧ c ≤ 'Z') ∨ ('0' ≤ c ∧ c ≤ '9') ∨ c = '_'

/-- Whether a `\b` word boundary stands between an optional previous
character and a next character: exactly one of the two sides is a word
character (a missing side counts as a non-word side). -/
def boundaryBetween (prev : Option Char) (next : Option Char) : Bool :=
  let pw := match prev with | none => false | some c => isWordChar c
  let nw := match next with | none => false | some c => isWordChar c
  pw ≠ nw

/-! ## Temporal Event Manager (`temporal_manager.py`)

Time is measured in days (`ℚ`): a Python `datetime` value is its (possibly
fractional) day number on the time line, and `timedelta(days=k)` is `k`. -/

/-- `TemporalManager._calculate_event_status` (temporal_manager.py,
lines 166–186).  `stored` is the event's previously stored `event["status"]`
field, which the Python function reads only when `start_date` is absent.
The two buffer constants are `pre_start_buffer = timedelta(days=7)` and
`post_end_buffer = timedelta(days=30)`; `end_date and ...` guards in the
`elif` chain become matches on the optional end date. -/
def calculateEventStatus (stored : String) (startDate endDate : Option ℚ)
    (currentDate : ℚ) : String :=
  match startDate with
  | none => stored            -- "Can't determine without start date"
  | some s =>
    if currentDate < s - 7 then "upcoming"
    else if currentDate < s then "starting_soon"
    else
      match endDate with
      | none => "current"
      | some e =>
        if currentDate > e + 30 then "completed"
        else if currentDate > e then "recently_completed"
        else "current"

/-! ## Memory Core (`memory_core.py`) -/

/-- A stored temporal event, as the fields of the persisted
`temporal_events` entries that `get_current_temporal_events` and the
status sweep read (`memory_core.TemporalMemory`). -/
structure TEvent where
  event_type : String
  description : String
  start_date : Option ℚ
  end_date : Option ℚ
  status : String
deriving DecidableEq, Repr

/-- `MemoryCore.get_current_temporal_events` (memory_core.py, lines
180–186): the loop appends exactly the stored events whose `status` field
is `"current"` or `"upcoming"`. -/
def getCurrentTemporalEvents (events : List TEvent) : List TEvent :=
  events.filter (fun e => e.status == "current" || e.status == "upcoming")

/-- `memory_core.SkillMemory`: the dataclass stored (as a dict) in the
`user_profile["skills"]` map. -/
structure SkillMemory where
  skill_name : String
  proficiency_level : String
  context : String
  examples : List String
  last_updated : String
deriving DecidableEq, Repr

/-- The key normalization of `MemoryCore.add_skill_memory` (memory_core.py,
line 136): `skill.skill_name.lower().replace(" ", "_")` — lower-case, then
replace each space character by an underscore. -/
def skillKey (name : String) : String :=
  ⟨(pyLower name).data.map (fun c => if c = ' ' then '_' else c)⟩

/-- Assignment `d[k] = v` on a Python dict embedded as an association list
in insertion order: an existing key keeps its position and gets the new
value; a new key is appended at the end. -/
def pyDictSet {V : Type} (m : List (String × V)) (k : String) (v : V) :
    List (String × V) :=
  if m.any (fun p => p.1 == k) then
    m.map (fun p => if p.1 == k then (k, v) else p)
  else
    m ++ [(k, v)]

/-- `MemoryCore.add_skill_memory` (memory_core.py, lines 134–138):
`self.memory_data["user_profile"]["skills"][skill_key] = asdict(skill)`. -/
def addSkillMemory (skills : List (String × SkillMemory)) (s : SkillMemory) :
    List (String × SkillMemory) :=
  pyDictSet skills (skillKey s.skill_name) s

/-- Lower-case alphanumeric test, used by the spec-side normalization. -/
def isAlnumChar (c : Char) : Bool :=
  ('a' ≤ c ∧ c ≤ 'z') ∨ ('0' ≤ c ∧ c ≤ '9')

/-- Collapse every maximal run of non-alphanumeric characters (whitespace
and punctuation alike) into a single underscore.  The flag records whether
the scan is currently inside such a run. -/
def collapseAux (inRun : Bool) : List Char → List Char
  | [] => []
  | c :: rest =>
    if isAlnumChar c then c :: collapseAux false rest
    else if inRun then collapseAux true rest
    else '_' :: collapseAux true rest

/-- Collapse runs of non-alphanumeric characters to one underscore. -/
def collapseNonAlnum (l : List Char) : List Char :=
  collapseAux false l

/-- The skill-name normalization as the claim words it (not as the code
has it): "normalization lower-cases the name and collapses whitespace and
punctuation".  Lower-case, then collapse each run of whitespace/punctuation
into a single separator. -/
def specNormalizeSkillName (name : String) : String :=
  ⟨collapseNonAlnum (pyLower name).data⟩

/-! ## Regular-expression fragments used by the Relevance Engine

Every `re.findall` in the embedded code uses one of three pattern shapes:

* `r'\b' + keyword + r'\b'` where `keyword` is a literal phrase —
  except for the two table keywords `"c++"` and `".net"`, which contain
  regex metacharacters and get dedicated scanners below;
* `stem + optional-letter + ':?' + r'\s*([^.]*)'` — a capture pattern;
* `r'\b\w+\b'` — tokenization into maximal word-character runs.

The scanners reproduce the left-to-right, non-overlapping scan of
`re.findall`: after a match the scan resumes at the first character past
the match, and the character left of the resume point is remembered for
the word-boundary test. -/

/-- A match of `\b <literal> \b` at the head of `t`, where `prev` is the
character immediately left of `t` in the full text. -/
def wbMatchAt (pat : List Char) (prev : Option Char) (t : List Char) : Bool :=
  pat.isPrefixOf t && boundaryBetween prev pat.head? &&
    boundaryBetween pat.getLast? (t.drop pat.length).head?

/-- Scanning count of non-overlapping `\b <literal> \b` matches.  `fuel`
is an upper bound on the number of scan steps (each step consumes at
least one character when the literal is nonempty, so `t.length` fuel is
enough). -/
def countWBAux (pat : List Char) : Option Char → List Char → Nat → Nat
  | _, _, 0 => 0
  | prev, t, fuel + 1 =>
    match t with
    | [] => 0
    | c :: rest =>
      if wbMatchAt pat prev t then
        1 + countWBAux pat pat.getLast? (t.drop pat.length) fuel
      else countWBAux pat (some c) rest fuel

/-- `len(re.findall(r'\b' + kw + r'\b', t))` for a literal keyword. -/
def countLiteralWB (pat t : String) : Nat :=
  countWBAux pat.data none t.data t.data.length

/-- `len(re.findall(r'\bc++\b', t))` under CPython ≥ 3.11, where `c++` is
a possessive one-or-more repetition of `'c'`: the pattern matches maximal
runs of `'c'` delimited by word boundaries. -/
def countCppAux : Option Char → List Char → Nat → Nat
  | _, _, 0 => 0
  | prev, t, fuel + 1 =>
    match t with
    | [] => 0
    | c :: rest =>
      if c = 'c' && boundaryBetween prev (some 'c') then
        let run := t.takeWhile (fun d => d = 'c')
        let after := t.drop run.length
        if boundaryBetween (some 'c') after.head? then
          1 + countCppAux (some 'c') after fuel
        else countCppAux (some c) rest fuel
      else countCppAux (some c) rest fuel

/-- Count of `\bc++\b` matches in `t`. -/
def countCpp (t : String) : Nat :=
  countCppAux none t.data t.data.length

/-- `len(re.findall(r'\b.net\b', t))`: the `'.'` is the regex wildcard
(any character except newline), so a match is any non-newline character
followed by the literal `net`, with a word boundary on each side. -/
def countDotNetAux : Option Char → List Char → Nat → Nat
  | _, _, 0 => 0
  | prev, t, fuel + 1 =>
    match t with
    | [] => 0
    | c :: rest =>
      match rest with
      | 'n' :: 'e' :: 't' :: after =>
        if c ≠ '\n' && boundaryBetween prev (some c) &&
            boundaryBetween (some 't') after.head? then
          1 + countDotNetAux (some 't') after fuel
        else countDotNetAux (some c) rest fuel
      | _ => countDotNetAux (some c) rest fuel

/-- Count of `\b.net\b` matches in `t`. -/
def countDotNet (t : String) : Nat :=
  countDotNetAux none t.data t.data.length

/-- `len(re.findall(r'\b' + keyword + r'\b', t))` for the keywords of the
engine's domain tables.  `"c++"` and `".net"` are the only table entries
containing regex metacharacters; every other keyword is a literal. -/
def kwCountWB (kw t : String) : Nat :=
  if kw = "c++" then countCpp t
  else if kw = ".net" then countDotNet t
  else countLiteralWB kw t

/-- The total word-boundary match count of a keyword list against a
text: the inner summation loop of the domain scorers, in `Nat`. -/
def totalKwCount (kws : List String) (jl : String) : Nat :=
  kws.foldl (fun a kw => a + kwCountWB kw jl) 0

/-- `re.findall(stem + optSuffix? + ':?' + r'\s*([^.]*)', t)`: at each
match of the stem, greedily consume the optional suffix letter, an
optional colon and whitespace, then capture up to (excluding) the next
`'.'`; resume scanning after the capture. -/
def findCapturesAux (stem : List Char) (optC : Option Char) :
    List Char → Nat → List String
  | _, 0 => []
  | t, fuel + 1 =>
    match t with
    | [] => []
    | _ :: rest =>
      if stem.isPrefixOf t then
        let t1 := t.drop stem.length
        let t2 := match optC, t1 with
          | some oc, d :: ds => if d = oc then ds else t1
          | _, _ => t1
        let t3 := match t2 with
          | ':' :: ds => ds
          | _ => t2
        let t4 := t3.dropWhile pyIsSpace
        let cap := t4.takeWhile (fun d => d ≠ '.')
        String.mk cap :: findCapturesAux stem optC (t4.drop cap.length) fuel
      else findCapturesAux stem optC rest fuel

/-- All captures of a `stem + optional letter + ':?' + '\s*([^.]*)'`
pattern over `t`. -/
def findCaptures (stem : String) (optC : Option Char) (t : String) :
    List String :=
  findCapturesAux stem.data optC t.data t.data.length

/-- `re.findall(r'\b\w+\b', s)`: the maximal runs of word characters.
`acc` holds the (reversed) run currently being read. -/
def wordTokensAux (acc : List Char) : List Char → List String
  | [] => if acc.isEmpty then [] else [String.mk acc.reverse]
  | c :: rest =>
    if isWordChar c then wordTokensAux (c :: acc) rest
    else if acc.isEmpty then wordTokensAux [] rest
    else String.mk acc.reverse :: wordTokensAux [] rest

/-- Tokenize a string into its maximal word-character runs. -/
def wordTokens (s : String) : List String :=
  wordTokensAux [] s.data

/-! ## Relevance Engine (`relevance_engine.py`) — tables -/

/-- `RelevanceEngine.tech_domains` (relevance_engine.py, lines 17–28). -/
def techDomains : List (String × List String) :=
  [("databases", ["sql", "mysql", "postgresql", "oracle", "mongodb", "nosql",
      "database", "db", "data", "query"]),
   ("programming", ["python", "java", "c++", "javascript", "nodejs", "php",
      "ruby", "go", "rust", ".net"]),
   ("web", ["html", "css", "react", "angular", "vue", "frontend", "backend",
      "web", "http", "api", "rest"]),
   ("cloud", ["aws", "azure", "gcp", "cloud", "docker", "kubernetes",
      "serverless", "microservices"]),
   ("networking", ["network", "tcp", "ip", "dns", "firewall", "vpn",
      "router", "switch", "security"]),
   ("systems", ["linux", "windows", "unix", "server", "admin",
      "infrastructure", "deployment"]),
   ("data", ["analytics", "visualization", "reporting", "bi", "etl",
      "data mining", "statistics"]),
   ("security", ["security", "cybersecurity", "encryption", "authentication",
      "authorization", "compliance"]),
   ("automation", ["automation", "scripting", "powershell", "bash",
      "workflow", "ci/cd", "devops"]),
   ("support", ["helpdesk", "support", "troubleshooting", "customer service",
      "technical support"])]

/-- `RelevanceEngine.business_domains` (relevance_engine.py, lines 31–41). -/
def businessDomains : List (String × List String) :=
  [("business_analysis", ["business analyst", "process analyst",
      "systems analyst", "business analysis", "requirements",
      "process improvement", "workflow", "documentation"]),
   ("finance", ["finance", "financial", "accounting", "order to cash", "otc",
      "cash application", "collections", "credit", "deductions", "ap", "ar",
      "gl", "revenue"]),
   ("process_improvement", ["process improvement", "lean", "six sigma",
      "process optimization", "efficiency", "streamline", "process redesign",
      "continuous improvement"]),
   ("project_management", ["project management", "project manager",
      "project coordination", "stakeholder management", "timeline",
      "deliverables", "milestones"]),
   ("business_intelligence", ["business intelligence", "bi", "power bi",
      "tableau", "data visualization", "dashboard", "reporting", "analytics",
      "insights"]),
   ("erp_systems", ["sap", "oracle", "erp", "enterprise systems", "crm",
      "salesforce", "workday", "peoplesoft"]),
   ("rpa_automation", ["rpa", "robotic process automation", "uipath",
      "automation anywhere", "blue prism", "process automation"]),
   ("change_management", ["change management", "training", "user adoption",
      "stakeholder engagement", "communication", "transformation"]),
   ("data_analysis", ["data analysis", "excel", "pivot tables", "vlookup",
      "data modeling", "statistical analysis", "metrics"])]

/-- `RelevanceEngine.role_types` (relevance_engine.py, lines 44–51). -/
def roleTypes : List (String × List String) :=
  [("technical_it", ["technician", "engineer", "developer", "administrator",
      "support specialist", "network", "system admin", "it specialist",
      "security analyst", "identity analyst", "access analyst",
      "iam analyst", "technical analyst", "it analyst", "systems analyst"]),
   ("business_analyst", ["business analyst", "process analyst",
      "functional analyst", "process development analyst",
      "business systems analyst"]),
   ("finance", ["accountant", "financial analyst", "controller",
      "finance manager", "accounts payable", "accounts receivable"]),
   ("project_management", ["project manager", "program manager",
      "scrum master", "project coordinator"]),
   ("management", ["manager", "director", "supervisor", "team lead",
      "department head"])]

/-- Context indicators of `_classify_job_role` (lines 172–176). -/
def technicalContextIndicators : List String :=
  ["active directory", "powershell", "server", "network", "windows", "linux",
   "infrastructure", "security", "authentication", "user accounts",
   "provisioning", "system administration", "it professional", "technical",
   "hardware", "software"]

/-- Context indicators of `_classify_job_role` (lines 178–182). -/
def businessContextIndicators : List String :=
  ["process improvement", "business requirements", "stakeholder", "workflow",
   "order to cash", "otc", "collections", "finance", "accounting", "rpa",
   "business intelligence", "transformation", "change management",
   "business case"]

/-! ## Relevance Engine — job analysis -/

/-- `role_scores[name] += d` on the scores dict. -/
def bumpRole (scores : List (String × Nat)) (name : String) (d : Nat) :
    List (String × Nat) :=
  scores.map (fun p => if p.1 = name then (p.1, p.2 + d) else p)

/-- The per-role pattern scores of `_classify_job_role` (lines 159–169):
word-boundary match counts plus 3 for a pattern occurring in the first 200
characters. -/
def roleScoresBase (jobLower : String) : List (String × Nat) :=
  roleTypes.map (fun rt =>
    (rt.1, rt.2.foldl (fun acc pat =>
      acc + kwCountWB pat jobLower +
        (if pyIn pat (pyTake200 jobLower) then 3 else 0)) 0))

/-- Python `max(d, key=d.get)`: the first key attaining the maximal value
(ties resolved to the earliest in insertion order). -/
def argmaxKey (l : List (String × Nat)) : String :=
  match l with
  | [] => ""
  | p :: rest => (rest.foldl (fun best q => if q.2 > best.2 then q else best) p).1

/-- Python `max(d.values())` for a dict with `Nat` values (all values are
nonnegative counts, so folding `max` from `0` agrees with Python's `max`
on the nonempty value list). -/
def maxValue (l : List (String × Nat)) : Nat :=
  (l.map Prod.snd).foldl max 0

/-- `RelevanceEngine._classify_job_role` (relevance_engine.py, lines
155–200). -/
def classifyJobRole (jobLower : String) : String :=
  let base := roleScoresBase jobLower
  let tcc := (technicalContextIndicators.filter
    (fun s => pyIn s jobLower)).length
  let bcc := (businessContextIndicators.filter
    (fun s => pyIn s jobLower)).length
  let adjusted :=
    if tcc > bcc + 2 then bumpRole base "technical_it" (tcc * 2)
    else if bcc > tcc + 2 then bumpRole base "business_analyst" (bcc * 2)
    else base
  let adjusted2 :=
    if pyIn "analyst" jobLower ∧ 3 ≤ tcc then bumpRole adjusted "technical_it" 5
    else adjusted
  if maxValue adjusted2 > 0 then argmaxKey adjusted2 else "unknown"

/-- `_score_business_content` / `_score_technical_content` (lines 202–216):
the total word-boundary match count over all keywords of all domains. -/
def scoreContent (domains : List (String × List String)) (jobLower : String) :
    Nat :=
  domains.foldl (fun acc p =>
    p.2.foldl (fun a kw => a + kwCountWB kw jobLower) acc) 0

/-- `_analyze_business_requirements` / `_analyze_technical_requirements`
(lines 218–242): per-domain scores `count * weight` summed over keywords;
only domains with positive score are recorded. -/
def analyzeDomains (domains : List (String × List String))
    (jobLower : String) (weight : ℚ) : List (String × ℚ) :=
  domains.filterMap (fun p =>
    let ds := p.2.foldl (fun a kw => a + (kwCountWB kw jobLower : ℚ) * weight) 0
    if ds > 0 then some (p.1, ds) else none)

/-- `_extract_all_terms` (lines 244–261): all tech and business keywords
occurring as substrings of the text, deduplicated (`list(set(terms))`;
CPython's set iteration order is unspecified, so the embedding keeps table
order — no theorem below depends on the order of this list). -/
def extractAllTerms (text : String) : List String :=
  let textLower := pyLower text
  (((techDomains.map Prod.snd).flatten ++
    (businessDomains.map Prod.snd).flatten).filter
      (fun kw => pyIn kw textLower)).dedup

/-- The `required_patterns` of `analyze_job_requirements` (lines 106–112),
as (stem, optional trailing letter) pairs of the regexes
`required?:?`, `must have:?`, `essential:?`, `minimum requirements?:?`,
`qualifications?:?`. -/
def requiredStems : List (String × Option Char) :=
  [("require", some 'd'), ("must have", none), ("essential", none),
   ("minimum requirement", some 's'), ("qualification", some 's')]

/-- The `preferred_patterns` (lines 114–120): `preferred?:?`,
`nice to have:?`, `bonus:?`, `plus:?`, `desired:?`. -/
def preferredStems : List (String × Option Char) :=
  [("preferre", some 'd'), ("nice to have", none), ("bonus", none),
   ("plus", none), ("desired", none)]

/-- The `responsibility_patterns` (lines 141–145): `responsibilities?:?`,
`duties:?`, `you will:?`. -/
def responsibilityStems : List (String × Option Char) :=
  [("responsibilitie", some 's'), ("duties", none), ("you will", none)]

/-- The analysis dict built by `RelevanceEngine.analyze_job_requirements`.
`company_focus` and `explicit_technologies` are initialized and never
updated by the engine. -/
structure JobAnalysis where
  required_skills : List String
  preferred_skills : List String
  tech_domains : List (String × ℚ)
  business_domains : List (String × ℚ)
  experience_level : String
  key_responsibilities : List String
  company_focus : String
  explicit_technologies : List String
  job_role_type : String
  primary_focus : String
deriving DecidableEq, Repr

/-- STEP 2 of `analyze_job_requirements` (lines 82–103): the primary
focus and the two domain-score dicts, by role type.  Returns
`(primary_focus, tech_domains, business_domains)`. -/
def analyzeFocusAndDomains (roleType jobLower : String) :
    String × List (String × ℚ) × List (String × ℚ) :=
  if roleType = "business_analyst" ∨ roleType = "finance" ∨
      roleType = "project_management" then
    ("business", [], analyzeDomains businessDomains jobLower 1)
  else if roleType = "technical_it" then
    ("technical", analyzeDomains techDomains jobLower 1, [])
  else
    let bs := scoreContent businessDomains jobLower
    let ts := scoreContent techDomains jobLower
    if bs > ts then
      ("business", analyzeDomains techDomains jobLower (3/10),
        analyzeDomains businessDomains jobLower 1)
    else
      ("technical", analyzeDomains techDomains jobLower 1,
        analyzeDomains businessDomains jobLower (3/10))

/-- `RelevanceEngine.analyze_job_requirements` (relevance_engine.py, lines
56–153).  The `job_analysis_cache` is keyed by the lower-cased stripped
text and only memoizes this pure computation, so it is omitted. -/
def analyzeJobRequirements (jobDescription : String) : JobAnalysis :=
  let jobLower := pyLower jobDescription
  let roleType := classifyJobRole jobLower
  let fd := analyzeFocusAndDomains roleType jobLower
  let requiredSkills := (requiredStems.map (fun st =>
    ((findCaptures st.1 st.2 jobLower).map extractAllTerms).flatten)).flatten
  let preferredSkills := (preferredStems.map (fun st =>
    ((findCaptures st.1 st.2 jobLower).map extractAllTerms).flatten)).flatten
  let experienceLevel :=
    if ["senior", "lead", "principal", "architect"].any
        (fun t => pyIn t jobLower) then "senior"
    else if ["junior", "entry", "associate", "1-2 years"].any
        (fun t => pyIn t jobLower) then "junior"
    else "mid"
  let keyResponsibilities := (responsibilityStems.map (fun st =>
    findCaptures st.1 st.2 jobLower)).flatten
  { required_skills := requiredSkills,
    preferred_skills := preferredSkills,
    tech_domains := fd.2.1,
    business_domains := fd.2.2,
    experience_level := experienceLevel,
    key_responsibilities := keyResponsibilities,
    company_focus := "",
    explicit_technologies := [],
    job_role_type := roleType,
    primary_focus := fd.1 }

/-! ## Relevance Engine — scoring and selection -/

/-- `RelevanceEngine._score_business_skill` (lines 309–332).  The lookup
`self.business_domains[domain]` defaults to `[]`; the analyzer only ever
records domains that are keys of the table. -/
def scoreBusinessSkill (skillName skillContext : String) (ja : JobAnalysis) :
    ℚ :=
  let score := ja.business_domains.foldl (fun acc p =>
    ((List.lookup p.1 businessDomains).getD []).foldl (fun a kw =>
      if pyIn kw skillName || pyIn kw skillContext then
        a + min (p.2 / 10) (8/10)
      else a) acc) 0
  let technicalOnlyTerms := ["technical support", "network security",
    "windows administration", "hardware"]
  let businessTechnicalTerms := ["data analysis", "sql", "database",
    "automation", "reporting", "excel", "power bi"]
  let isTechnicalOnly := technicalOnlyTerms.any (fun t => pyIn t skillName)
  let isBusinessTechnical :=
    businessTechnicalTerms.any (fun t => pyIn t skillName)
  if isTechnicalOnly && !isBusinessTechnical then max (score - 6/10) (1/10)
  else score

/-- `RelevanceEngine._score_technical_skill` (lines 334–359). -/
def scoreTechnicalSkill (skillName skillContext : String) (ja : JobAnalysis) :
    ℚ :=
  let score := ja.tech_domains.foldl (fun acc p =>
    ((List.lookup p.1 techDomains).getD []).foldl (fun a kw =>
      if pyIn kw skillName || pyIn kw skillContext then
        a + min (p.2 / 10) (8/10)
      else a) acc) 0
  if ja.job_role_type = "technical_it" then
    let s1 := if ["network", "security", "system", "server",
        "administration"].any (fun t => pyIn t skillName) then
        score + 7/10 else score
    let s2 := if ["active directory", "powershell", "windows", "linux"].any
        (fun t => pyIn t skillName) then s1 + 6/10 else s1
    if pyIn "technical support" skillName then s2 + 4/10 else s2
  else score

/-- `RelevanceEngine.score_skill_relevance` (relevance_engine.py, lines
277–307). -/
def scoreSkillRelevance (skill : SkillMemory) (ja : JobAnalysis) : ℚ :=
  let skillName := pyLower skill.skill_name
  let skillContext := pyLower skill.context
  let s1 := ja.required_skills.foldl (fun a rs =>
    if pyIn rs skillName || pyIn rs skillContext then a + 8/10 else a) 0
  let s2 := ja.preferred_skills.foldl (fun a ps =>
    if pyIn ps skillName || pyIn ps skillContext then a + 5/10 else a) s1
  let s3 :=
    if ja.primary_focus = "business" then
      s2 + scoreBusinessSkill skillName skillContext ja
    else if ja.primary_focus = "technical" then
      s2 + scoreTechnicalSkill skillName skillContext ja
    else
      s2 + scoreBusinessSkill skillName skillContext ja * (6/10)
         + scoreTechnicalSkill skillName skillContext ja * (6/10)
  min s3 1

/-- `memory_core.StyleMemory`: a stored style preference. -/
structure StyleMemory where
  preference_type : String
  rule : String
  examples : List String
  success_rate : ℚ
  last_applied : String
  context : String
deriving DecidableEq, Repr

/-- `RelevanceEngine.score_style_relevance` (relevance_engine.py, lines
361–374).  Note the outer condition tests list *membership* of the four
literal terms in `key_responsibilities` (Python `term in <list>`), not
substring containment. -/
def scoreStyleRelevance (style : StyleMemory) (ja : JobAnalysis) : ℚ :=
  let rule := pyLower style.rule
  if ["communicate", "present", "write", "document"].any
      (fun t => ja.key_responsibilities.contains t) then
    if ["tone", "communication", "writing"].any (fun t => pyIn t rule) then
      9/10
    else 7/10
  else 7/10

/-- Stable insertion into a descending-by-score list: the new element goes
after every earlier element with an equal or higher score. -/
def insertScoredDesc {α : Type} (x : α × ℚ) : List (α × ℚ) → List (α × ℚ)
  | [] => [x]
  | y :: ys => if x.2 > y.2 then x :: y :: ys else y :: insertScoredDesc x ys

/-- Python `list.sort(key=lambda x: x[1], reverse=True)`: a stable sort
descending by score (equal scores keep their original relative order). -/
def sortScoredDesc {α : Type} (l : List (α × ℚ)) : List (α × ℚ) :=
  l.foldl (fun acc x => insertScoredDesc x acc) []

/-- The skill-selection steps of `get_relevant_memories` (lines 382–393):
score every stored skill, keep scores strictly above `0.1`, sort
descending by score, take the first `max_skills`. -/
def selectSkills (skills : List (String × SkillMemory)) (ja : JobAnalysis)
    (maxSkills : Nat) : List (SkillMemory × ℚ) :=
  (sortScoredDesc ((skills.map
    (fun p => (p.2, scoreSkillRelevance p.2 ja))).filter
      (fun q => q.2 > 1/10))).take maxSkills

/-- The style-selection steps of `get_relevant_memories` (lines 395–408):
per category, keep preferences scoring strictly above `0.5`, sort
descending, take the first `max_styles`; categories with no qualifying
preference do not appear (the `defaultdict` never gets the key). -/
def selectStyles (stylePrefs : List (String × List StyleMemory))
    (ja : JobAnalysis) (maxStyles : Nat) : List (String × List StyleMemory) :=
  stylePrefs.filterMap (fun cp =>
    let scored := (cp.2.map (fun p => (p, scoreStyleRelevance p ja))).filter
      (fun q => q.2 > 1/2)
    if scored.isEmpty then none
    else some (cp.1, ((sortScoredDesc scored).take maxStyles).map Prod.fst))

/-- The parts of the `MemoryCore` store read by `get_relevant_memories`. -/
structure MemoryStore where
  skills : List (String × SkillMemory)
  style_preferences : List (String × List StyleMemory)
  temporal_events : List TEvent

/-- The dict returned by `get_relevant_memories` (lines 413–419).
`skill_scores` is the `{skill_name: score}` dict as an association list in
insertion order. -/
structure RelevantMemories where
  relevant_skills : List SkillMemory
  skill_scores : List (String × ℚ)
  relevant_styles : List (String × List StyleMemory)
  temporal_events : List TEvent
  job_analysis : JobAnalysis

/-- `RelevanceEngine.get_relevant_memories` (relevance_engine.py, lines
376–419). -/
def getRelevantMemories (memory : MemoryStore) (jobDescription : String)
    (maxSkills maxStyles : Nat) : RelevantMemories :=
  let ja := analyzeJobRequirements jobDescription
  let topSkills := selectSkills memory.skills ja maxSkills
  { relevant_skills := topSkills.map Prod.fst,
    skill_scores := topSkills.map (fun q => (q.1.skill_name, q.2)),
    relevant_styles := selectStyles memory.style_preferences ja maxStyles,
    temporal_events := getCurrentTemporalEvents memory.temporal_events,
    job_analysis := ja }

/-! ## Semantic Matcher (`advanced_relevance_engine.py`, lines 199–294) -/

/-- `SemanticMatcher.semantic_clusters` (lines 204–233). -/
def semanticClusters : List (String × List String) :=
  [("database_management", ["database", "sql", "mysql", "postgresql",
      "oracle", "mongodb", "data management", "database administration",
      "dba", "query optimization"]),
   ("network_administration", ["network", "networking", "tcp/ip", "dns",
      "dhcp", "vpn", "firewall", "network security", "lan", "wan",
      "routing", "switching"]),
   ("system_administration", ["system admin", "server management", "linux",
      "windows", "unix", "server administration", "infrastructure",
      "system maintenance"]),
   ("cloud_technologies", ["cloud", "aws", "azure", "gcp",
      "cloud computing", "saas", "paas", "iaas", "cloud architecture",
      "cloud migration", "serverless"]),
   ("business_analysis", ["business analyst", "requirements gathering",
      "process improvement", "business requirements",
      "stakeholder management", "gap analysis"]),
   ("project_management", ["project management", "project manager", "scrum",
      "agile", "kanban", "project coordination", "timeline management",
      "resource planning"]),
   ("data_analysis", ["data analysis", "analytics", "reporting",
      "business intelligence", "data visualization", "excel",
      "pivot tables", "dashboards"])]

/-- `SemanticMatcher.synonyms` (lines 236–245). -/
def synonymsTable : List (String × String) :=
  [("sys admin", "system administrator"),
   ("sysadmin", "system administrator"),
   ("net admin", "network administrator"),
   ("dba", "database administrator"),
   ("pm", "project manager"),
   ("ba", "business analyst"),
   ("dev", "developer"),
   ("qa", "quality assurance")]

/-- `SemanticMatcher._find_cluster` (lines 288–294): the first cluster, in
table order, one of whose terms contains or is contained in the given
term. -/
def findCluster (term : String) : Option String :=
  semanticClusters.findSome? (fun cl =>
    if cl.2.any (fun ct => pyIn ct term || pyIn term ct) then some cl.1
    else none)

/-- `self.synonyms.get(t, t)`: normalize a term through the synonym
table. -/
def synNormalize (t : String) : String :=
  (List.lookup t synonymsTable).getD t

/-- `SemanticMatcher.calculate_semantic_similarity`
(advanced_relevance_engine.py, lines 247–286). -/
def calculateSemanticSimilarity (skill requirement : String) : ℚ :=
  let sl := pyStrip (pyLower skill)
  let rl := pyStrip (pyLower requirement)
  if sl = rl then 1
  else if synNormalize sl = synNormalize rl then 19/20
  else if pyIn sl rl || pyIn rl sl then 4/5
  else
    let sc := findCluster sl
    let rc := findCluster rl
    if sc.isSome ∧ rc.isSome ∧ sc = rc then 7/10
    else
      let st := (wordTokens sl).toFinset
      let rt := (wordTokens rl).toFinset
      if 0 < st.card ∧ 0 < rt.card then
        let overlap : ℚ := (st ∩ rt).card
        let union : ℚ := (st ∪ rt).card
        let jac := if union > 0 then overlap / union else 0
        if jac > 3/10 then jac * (6/10) else 0
      else 0

/-! ## Advanced Relevance Engine — comprehensive skill scoring -/

/-- One entry of the advanced engine's domain tables: keywords, weight and
per-industry boost factors. -/
structure DomainConfig where
  keywords : List String
  weight : ℚ
  industry_boost : List (String × ℚ)
deriving DecidableEq, Repr

/-- `AdvancedRelevanceEngine.tech_domains` (lines 320–361). -/
def advTechDomains : List (String × DomainConfig) :=
  [("databases", ⟨["sql", "mysql", "postgresql", "oracle", "mongodb",
      "nosql", "database", "db", "data", "query"], 1,
      [("finance", 3/2), ("healthcare", 13/10), ("retail", 6/5)]⟩),
   ("programming", ⟨["python", "java", "c++", "javascript", "nodejs", "php",
      "ruby", "go", "rust", ".net"], 6/5,
      [("technology", 9/5), ("finance", 13/10)]⟩),
   ("web", ⟨["html", "css", "react", "angular", "vue", "frontend",
      "backend", "web", "http", "api", "rest"], 11/10,
      [("technology", 8/5), ("retail", 7/5)]⟩),
   ("cloud", ⟨["aws", "azure", "gcp", "cloud", "docker", "kubernetes",
      "serverless", "microservices"], 13/10,
      [("technology", 17/10), ("finance", 7/5)]⟩),
   ("networking", ⟨["network", "tcp", "ip", "dns", "firewall", "vpn",
      "router", "switch", "security"], 6/5,
      [("technology", 3/2), ("healthcare", 13/10)]⟩),
   ("systems", ⟨["linux", "windows", "unix", "server", "admin",
      "infrastructure", "deployment"], 11/10,
      [("technology", 7/5), ("manufacturing", 13/10)]⟩),
   ("security", ⟨["security", "cybersecurity", "encryption",
      "authentication", "authorization", "compliance"], 7/5,
      [("finance", 9/5), ("healthcare", 8/5)]⟩),
   ("automation", ⟨["automation", "scripting", "powershell", "bash",
      "workflow", "ci/cd", "devops"], 6/5,
      [("technology", 8/5), ("manufacturing", 7/5)]⟩)]

/-- `AdvancedRelevanceEngine.business_domains` (lines 363–384). -/
def advBusinessDomains : List (String × DomainConfig) :=
  [("business_analysis", ⟨["business analyst", "requirements",
      "process improvement", "workflow", "documentation"], 1,
      [("finance", 7/5), ("healthcare", 13/10)]⟩),
   ("finance", ⟨["finance", "financial", "accounting", "order to cash",
      "collections", "credit"], 11/10,
      [("finance", 9/5), ("manufacturing", 6/5)]⟩),
   ("project_management", ⟨["project management", "scrum", "agile",
      "stakeholder management", "timeline"], 6/5,
      [("technology", 3/2), ("manufacturing", 7/5)]⟩),
   ("business_intelligence", ⟨["business intelligence", "bi", "power bi",
      "tableau", "data visualization", "dashboard"], 13/10,
      [("finance", 8/5), ("retail", 7/5)]⟩)]

/-- The fields of `JobAnalysisResult` read by
`score_skill_comprehensive`.  `industry` stands for
`industry_context["industry"]` (default `"general"`); the remaining
metadata fields of the dataclass are not read by the scorer. -/
structure JobAnalysisResult where
  job_role_type : String
  primary_focus : String
  required_skills : List String
  preferred_skills : List String
  tech_domains : List (String × ℚ)
  business_domains : List (String × ℚ)
  industry : String
  experience_level : String
  explicit_technologies : List String
deriving DecidableEq, Repr

/-- The `SkillRelevanceScore` dataclass (lines 70–94). -/
structure SkillRelevanceScore where
  skill_name : String
  base_score : ℚ
  domain_boost : ℚ
  experience_alignment : ℚ
  industry_relevance : ℚ
  semantic_similarity : ℚ
  final_score : ℚ
  explanation : String
  confidence : ℚ
deriving DecidableEq, Repr

/-- The industry-relevance pass of `score_skill_comprehensive` (lines
776–793): iterate the domain table; every domain whose boost table has the
industry and one of whose keywords occurs in the skill name *assigns*
`0.15 * (boost - 1)` (the inner `break` only ends the keyword loop, so the
last matching domain wins). -/
def industryRelevanceScan (domains : List (String × DomainConfig))
    (industry skillName : String) : ℚ :=
  domains.foldl (fun acc p =>
    match List.lookup industry p.2.industry_boost with
    | some boost =>
      if p.2.keywords.any (fun kw => pyIn kw skillName) then
        (3/20) * (boost - 1)
      else acc
    | none => acc) 0

/-- `AdvancedRelevanceEngine._calculate_confidence` (lines 866–882). -/
def calculateConfidence (baseScore domainBoost semanticSim : ℚ) : ℚ :=
  if baseScore > 4/5 then 19/20
  else if baseScore > 1/2 ∨ domainBoost > 3/5 then 4/5
  else if baseScore > 1/5 ∨ domainBoost > 3/10 ∨ semanticSim > 3/10 then 3/5
  else 2/5

/-- `AdvancedRelevanceEngine._generate_score_explanation` (lines
834–864). -/
def generateScoreExplanation (baseScore domainBoost industryRelevance
    semanticSimilarity penalty : ℚ) (ja : JobAnalysisResult) : String :=
  let e1 : List String :=
    if baseScore > 7/10 then ["Strong match with job requirements"]
    else if baseScore > 2/5 then ["Moderate match with job requirements"]
    else if baseScore > 1/10 then ["Weak match with job requirements"]
    else []
  let e2 : List String :=
    if domainBoost > 1/2 then
      ["High relevance to " ++ ja.primary_focus ++ " role"]
    else if domainBoost > 1/5 then
      ["Moderate relevance to " ++ ja.primary_focus ++ " role"]
    else []
  let e3 : List String :=
    if industryRelevance > 1/10 then
      ["Valuable for " ++ ja.industry ++ " industry"]
    else []
  let e4 : List String :=
    if semanticSimilarity > 1/5 then
      ["Semantic similarity with mentioned technologies"]
    else []
  let e5 : List String :=
    if penalty > 0 then ["Some mismatch with role focus"] else []
  let es := e1 ++ e2 ++ e3 ++ e4 ++ e5
  if es.isEmpty then "Basic relevance assessment"
  else String.intercalate "; " es

/-- `AdvancedRelevanceEngine.score_skill_comprehensive`
(advanced_relevance_engine.py, lines 728–832).  A missing domain key
defaults to a config with no keywords and weight 1, exactly as the chained
`.get` calls do. -/
def scoreSkillComprehensive (skill : SkillMemory) (ja : JobAnalysisResult) :
    SkillRelevanceScore :=
  let skillName := pyLower skill.skill_name
  let skillContext := pyLower skill.context
  let base1 := ja.required_skills.foldl (fun b rs =>
    max b (calculateSemanticSimilarity skillName (pyLower rs) * (9/10))) 0
  let baseScore := ja.preferred_skills.foldl (fun b ps =>
    max b (calculateSemanticSimilarity skillName (pyLower ps) * (6/10)))
    base1
  let domainBoost :=
    if ja.primary_focus = "technical" then
      ja.tech_domains.foldl (fun acc p =>
        let cfg := (List.lookup p.1 advTechDomains).getD ⟨[], 1, []⟩
        cfg.keywords.foldl (fun a kw =>
          if pyIn kw skillName || pyIn kw skillContext then
            a + min (p.2 / 15) (4/5) * cfg.weight
          else a) acc) 0
    else if ja.primary_focus = "business" then
      ja.business_domains.foldl (fun acc p =>
        let cfg := (List.lookup p.1 advBusinessDomains).getD ⟨[], 1, []⟩
        cfg.keywords.foldl (fun a kw =>
          if pyIn kw skillName || pyIn kw skillContext then
            a + min (p.2 / 10) (4/5) * cfg.weight
          else a) acc) 0
    else 0
  let experienceAlignment :=
    if ja.experience_level = "senior" ∧ pyIn "senior" skillContext then 1/5
    else if ja.experience_level = "junior" ∧
        ["basic", "entry", "beginner"].any (fun t => pyIn t skillContext)
      then 1/10
    else if ja.experience_level = "mid" then 1/10
    else 0
  let industryRelevance :=
    if ja.industry ≠ "general" then
      if ja.primary_focus = "technical" then
        industryRelevanceScan advTechDomains ja.industry skillName
      else industryRelevanceScan advBusinessDomains ja.industry skillName
    else 0
  let semanticSimilarity := ja.explicit_technologies.foldl (fun m tech =>
    max m (calculateSemanticSimilarity skillName tech * (3/10))) 0
  let penalty :=
    if ja.primary_focus = "business" ∧
        ["network security", "server administration",
         "hardware troubleshooting"].any (fun t => pyIn t skillName)
      then 2/5 else 0
  let finalScore := max 0 (min 1 (baseScore + domainBoost +
    experienceAlignment + industryRelevance + semanticSimilarity - penalty))
  { skill_name := skill.skill_name,
    base_score := baseScore,
    domain_boost := domainBoost,
    experience_alignment := experienceAlignment,
    industry_relevance := industryRelevance,
    semantic_similarity := semanticSimilarity,
    final_score := finalScore,
    explanation := generateScoreExplanation baseScore domainBoost
      industryRelevance semanticSimilarity penalty ja,
    confidence := calculateConfidence baseScore domainBoost
      semanticSimilarity }

/-! ## Memory persistence (`memory_core.py`, `MemoryCore._load_memory`) -/

/-- `memory_core.FeedbackMemory`. -/
structure FeedbackMemory where
  feedback_text : String
  cover_letter_context : String
  outcome : String
  extracted_insights : List String
  applied_changes : List String
  effectiveness_score : ℚ
deriving DecidableEq, Repr

/-- The persisted memory document, with the fields of the structure that
`_load_memory` builds (memory_core.py, lines 97–125). -/
structure MemoryData where
  personal_info : List (String × String)
  education : List String
  skills : List (String × SkillMemory)
  experiences : List (String × String)
  preferences : List (String × String)
  avoid_phrases : List StyleMemory
  prefer_phrases : List StyleMemory
  tone_preferences : List StyleMemory
  structure_preferences : List StyleMemory
  temporal_events : List TEvent
  feedback_history : List FeedbackMemory
  successful_approaches : List String
  failed_approaches : List String
  preference_trends : List (String × String)
  created : String
  last_updated : String
  total_interactions : Nat
  successful_generations : Nat

/-- The empty default structure `_load_memory` initializes (lines
97–125); `now` is `datetime.now().isoformat()`. -/
def defaultMemory (now : String) : MemoryData :=
  ⟨[], [], [], [], [], [], [], [], [], [], [], [], [], [], now, now, 0, 0⟩

/-- The possible states of the persisted `user_memory.json` file, as the
CPython I/O in `_load_memory` distinguishes them: absent; present but not
valid UTF-8 (reading raises `UnicodeDecodeError`); valid UTF-8 but not
valid JSON (`json.load` raises `json.JSONDecodeError`); or a valid
document. -/
inductive PersistedMemoryFile where
  | missing
  | undecodable
  | malformed
  | valid (data : MemoryData)

/-- `MemoryCore._load_memory` (memory_core.py, lines 88–125).  The `try`
block catches exactly `json.JSONDecodeError` and `FileNotFoundError`; a
`UnicodeDecodeError` from reading non-UTF-8 bytes propagates to the
caller, modelled as `Except.error`. -/
def loadMemory (now : String) : PersistedMemoryFile → Except String MemoryData
  | .missing => .ok (defaultMemory now)
  | .undecodable => .error "UnicodeDecodeError"
  | .malformed => .ok (defaultMemory now)
  | .valid d => .ok d

/-! ## Well-formedness of analyzer output -/

/-- The domain scores an analysis profile carries are nonnegative — an
invariant of every profile `analyze_job_requirements` produces. -/
def JobAnalysis.wf (ja : JobAnalysis) : Prop :=
  (∀ p ∈ ja.tech_domains, 0 ≤ p.2) ∧ (∀ p ∈ ja.business_domains, 0 ≤ p.2)

/-- The token-set Jaccard similarity of two strings, with value `0` when
the union of token sets is empty (the convention of the similarity
spec). -/
def jaccardTokens (x y : String) : ℚ :=
  let xt := (wordTokens x).toFinset
  let yt := (wordTokens y).toFinset
  if 0 < (xt ∪ yt).card then ((xt ∩ yt).card : ℚ) / ((xt ∪ yt).card : ℚ)
  else 0

/-! ## Concrete instances for the scenario claims -/

/-- A stored skill with the given name and empty context. -/
def c1Skill (name : String) : SkillMemory :=
  ⟨name, "expert", "", [], "2024-01-01"⟩

/-- A store holding 10 skills, four of whose names contain `"network"`
(these score `0.7` against the job description `"developer"`, the other
six score `0.0`). -/
def c1Store : MemoryStore :=
  ⟨[("network_1", c1Skill "network 1"), ("network_2", c1Skill "network 2"),
    ("network_3", c1Skill "network 3"), ("network_4", c1Skill "network 4"),
    ("qq1", c1Skill "qq1"), ("qq2", c1Skill "qq2"), ("qq3", c1Skill "qq3"),
    ("qq4", c1Skill "qq4"), ("qq5", c1Skill "qq5"), ("qq6", c1Skill "qq6")],
   [], []⟩

/-- The analysis the engine produces for the job description
`"developer"`: role `technical_it` (the pattern `developer` matches and
appears in the title area), technical focus, no domain scores and no
extracted skills. -/
def c1JA : JobAnalysis :=
  ⟨[], [], [], [], "mid", [], "", [], "technical_it", "technical"⟩

/-! ### Dictionary lemmas for the skills map -/

theorem pyDictSet_keys_nodup {V : Type} (m : List (String × V)) (k : String)
    (v : V) (h : (m.map Prod.fst).Nodup) :
    ((pyDictSet m k v).map Prod.fst).Nodup := by
  unfold pyDictSet
  split
  · have heq : (m.map (fun p => if p.1 == k then (k, v) else p)).map Prod.fst
        = m.map Prod.fst := by
      rw [List.map_map]
      apply List.map_congr_left
      intro p _
      by_cases hpk : p.1 = k <;> simp [hpk]
    rw [heq]; exact h
  · next hany =>
    rw [List.map_append]
    simp only [List.map_cons, List.map_nil]
    rw [List.nodup_append]
    refine ⟨h, List.nodup_singleton k, ?_⟩
    intro a ha hk
    simp only [List.mem_singleton] at hk
    subst hk
    simp only [List.any_eq_true, beq_iff_eq, not_exists, not_and] at hany
    obtain ⟨p, hp, rfl⟩ := List.mem_map.mp ha
    exact hany p hp rfl

theorem pyDictSet_filter_key {V : Type} (m : List (String × V)) (k : String)
    (v : V) (h : (m.map Prod.fst).Nodup) :
    (pyDictSet m k v).filter (fun p => p.1 == k) = [(k, v)] := by
  induction m with
  | nil => simp [pyDictSet]
  | cons p m ih =>
    simp only [List.map_cons, List.nodup_cons] at h
    obtain ⟨hp1, hnd⟩ := h
    by_cases hpk : p.1 = k
    · have hany : (p :: m).any (fun q => q.1 == k) = true := by
        simp [List.any_cons, hpk]
      rw [pyDictSet, if_pos hany]
      simp only [List.map_cons, if_pos (beq_iff_eq.mpr hpk)]
      rw [List.filter_cons_of_pos (by simp)]
      have hnone : ∀ q ∈ m, ¬ q.1 = k := by
        intro q hq hqk
        exact hp1 (hpk ▸ hqk ▸ List.mem_map.mpr ⟨q, hq, rfl⟩)
      have hmap : m.map (fun q => if q.1 == k then (k, v) else q) = m := by
        conv_rhs => rw [← List.map_id m]
        apply List.map_congr_left
        intro q hq
        simp [hnone q hq]
      rw [hmap, List.filter_eq_nil_iff.mpr (by intro q hq; simp [hnone q hq])]
    · by_cases hany : m.any (fun q => q.1 == k)
      · have hany' : (p :: m).any (fun q => q.1 == k) = true := by
          simp only [List.any_cons, hany, Bool.or_true]
        have hbk : (p.1 == k) = false := by simp [hpk]
        rw [pyDictSet, if_pos hany']
        simp only [List.map_cons, hbk, Bool.false_eq_true, if_false]
        rw [List.filter_cons_of_neg (by simp [hbk])]
        have := ih hnd
        rw [pyDictSet, if_pos hany] at this
        exact this
      · have hany' : ¬ ((p :: m).any (fun q => q.1 == k) = true) := by
          simp only [List.any_cons, Bool.or_eq_true, not_or]
          exact ⟨by simp [hpk], hany⟩
        rw [pyDictSet, if_neg hany', List.cons_append,
          List.filter_cons_of_neg (by simp [hpk])]
        have := ih hnd
        rw [pyDictSet, if_neg (by simp_all)] at this
        exact this

theorem pyDictSet_length {V : Type} (m : List (String × V)) (k : String)
    (v : V) :
    (pyDictSet m k v).length =
      if m.any (fun p => p.1 == k) then m.length else m.length + 1 := by
  unfold pyDictSet
  split <;> simp

theorem foldl_addSkillMemory_nodup (adds : List SkillMemory) :
    ∀ m : List (String × SkillMemory), (m.map Prod.fst).Nodup →
      (((adds.foldl addSkillMemory m).map Prod.fst)).Nodup := by
  induction adds with
  | nil => intro m h; exact h
  | cons s adds ih =>
    intro m h
    exact ih _ (pyDictSet_keys_nodup m (skillKey s.skill_name) s h)

/-! ## Claim C7 — uniqueness of normalized skill keys -/

/-- C7, counterexample.  The claim says the key normalization collapses
whitespace and punctuation; the code's normalization is
`name.lower().replace(" ", "_")`, which leaves punctuation alone.  Adding
the two skills `"SQL."` and `"SQL,"` — which the claim's normalization
sends to the same key — produces two records, so the store does not hold
at most one record per claim-normalized key. -/
theorem C7_counterexample :
    specNormalizeSkillName "SQL." = specNormalizeSkillName "SQL," ∧
    ((addSkillMemory
        (addSkillMemory [] ⟨"SQL.", "expert", "", [], "2024-01-01"⟩)
        ⟨"SQL,", "expert", "", [], "2024-01-02"⟩).filter
      (fun p => specNormalizeSkillName p.2.skill_name ==
        specNormalizeSkillName "SQL.")).length = 2 := by
  constructor <;> rfl

/-- C7, amended: the skills map holds at most one record per normalized
key, where normalization lower-cases the name and replaces each space
character by an underscore (punctuation is left untouched).  After any
sequence of additions the keys are pairwise distinct; re-adding a skill
whose name has an unchanged normalized form overwrites the existing record
in place (the stored record becomes the new one, `last_updated` included),
the store keeps exactly one record for that key, and the store size grows
only when the key is new. -/
theorem C7_skill_map_unique (adds : List SkillMemory) (s : SkillMemory) :
    (((adds.foldl addSkillMemory []).map Prod.fst)).Nodup ∧
    ((addSkillMemory (adds.foldl addSkillMemory []) s).filter
        (fun p => p.1 == skillKey s.skill_name)) =
      [(skillKey s.skill_name, s)] ∧
    (addSkillMemory (adds.foldl addSkillMemory []) s).length =
      (if (adds.foldl addSkillMemory []).any
          (fun p => p.1 == skillKey s.skill_name)
       then (adds.foldl addSkillMemory []).length
       else (adds.foldl addSkillMemory []).length + 1) := by
  have hnd := foldl_addSkillMemory_nodup adds [] (by simp)
  exact ⟨hnd, pyDictSet_filter_key _ _ _ hnd, pyDictSet_length _ _ _⟩

/-! ## Claim C2 — which temporal events are selected -/

/-- C2, counterexample.  The claim says events whose current status is
`"starting_soon"` (or `"recently_completed"`) are included in the
selection; `get_current_temporal_events` filters on
`status in ["current", "upcoming"]`, so a `"starting_soon"` event is
dropped. -/
theorem C2_counterexample :
    (⟨"education", "bootcamp", some 0, some 10, "starting_soon"⟩ :
      TEvent).status = "starting_soon" ∧
    getCurrentTemporalEvents
      [⟨"education", "bootcamp", some 0, some 10, "starting_soon"⟩] = [] :=
  ⟨rfl, rfl⟩

/-- C2, amended: the temporal events included in a selection result are
exactly the stored events whose status is `"current"` or `"upcoming"` —
no relevance-score filtering is applied to temporal events, but
`"starting_soon"` and `"recently_completed"` events are not included. -/
theorem C2_selected_temporal_events (store : MemoryStore) (jd : String)
    (maxSkills maxStyles : Nat) (e : TEvent) :
    (getRelevantMemories store jd maxSkills maxStyles).temporal_events =
      getCurrentTemporalEvents store.temporal_events ∧
    (e ∈ getCurrentTemporalEvents store.temporal_events ↔
      e ∈ store.temporal_events ∧
        (e.status = "current" ∨ e.status = "upcoming")) := by
  refine ⟨rfl, ?_⟩
  simp [getCurrentTemporalEvents, List.mem_filter]

/-! ## Claim C10 — style scores are exactly 0.7 or 0.9 -/

/-- C10: every style relevance score is exactly `0.7` or `0.9`; in
particular every stored style preference exceeds the `0.5` floor, so the
floor filter of `get_relevant_memories` keeps every scored preference. -/
theorem C10_style_scores (style : StyleMemory) (ja : JobAnalysis)
    (prefs : List StyleMemory) :
    (scoreStyleRelevance style ja = 7/10 ∨
      scoreStyleRelevance style ja = 9/10) ∧
    scoreStyleRelevance style ja > 1/2 ∧
    ((prefs.map (fun p => (p, scoreStyleRelevance p ja))).filter
        (fun q => q.2 > 1/2)) =
      prefs.map (fun p => (p, scoreStyleRelevance p ja)) := by
  have key : ∀ s : StyleMemory,
      scoreStyleRelevance s ja = 7/10 ∨ scoreStyleRelevance s ja = 9/10 := by
    intro s
    simp only [scoreStyleRelevance]
    split_ifs <;> simp
  have pos : ∀ s : StyleMemory, scoreStyleRelevance s ja > 1/2 := by
    intro s
    rcases key s with h | h <;> rw [h] <;> norm_num
  refine ⟨key style, pos style, ?_⟩
  apply List.filter_eq_self.mpr
  intro q hq
  simp only [List.mem_map] at hq
  obtain ⟨p, _, rfl⟩ := hq
  simpa using pos p

/-! ### Stable-sort lemmas for the selection step -/

theorem insertScoredDesc_perm {α : Type} (x : α × ℚ) (l : List (α × ℚ)) :
    (insertScoredDesc x l).Perm (x :: l) := by
  induction l with
  | nil => simp [insertScoredDesc]
  | cons y ys ih =>
    unfold insertScoredDesc
    split
    · exact List.Perm.refl _
    · exact (ih.cons y).trans (List.Perm.swap x y ys)

theorem sortScoredDesc_perm_aux {α : Type} (l : List (α × ℚ)) :
    ∀ acc : List (α × ℚ),
      (l.foldl (fun acc x => insertScoredDesc x acc) acc).Perm (acc ++ l) := by
  induction l with
  | nil => intro acc; simp
  | cons x xs ih =>
    intro acc
    refine (ih (insertScoredDesc x acc)).trans ?_
    exact ((insertScoredDesc_perm x acc).append_right xs).trans
      List.perm_middle.symm

theorem sortScoredDesc_perm {α : Type} (l : List (α × ℚ)) :
    (sortScoredDesc l).Perm l := by
  simpa [sortScoredDesc] using sortScoredDesc_perm_aux l []

theorem insertScoredDesc_sorted {α : Type} (x : α × ℚ) (l : List (α × ℚ))
    (h : l.Pairwise (fun a b => b.2 ≤ a.2)) :
    (insertScoredDesc x l).Pairwise (fun a b => b.2 ≤ a.2) := by
  induction l with
  | nil => simp [insertScoredDesc]
  | cons y ys ih =>
    rw [List.pairwise_cons] at h
    obtain ⟨hy, hys⟩ := h
    unfold insertScoredDesc
    split
    · next hgt =>
      refine List.Pairwise.cons ?_ (List.Pairwise.cons hy hys)
      intro z hz
      rcases List.mem_cons.mp hz with rfl | hz
      · exact le_of_lt hgt
      · exact (hy z hz).trans (le_of_lt hgt)
    · next hle =>
      refine List.Pairwise.cons ?_ (ih hys)
      intro z hz
      rcases List.mem_cons.mp ((insertScoredDesc_perm x ys).mem_iff.mp hz)
        with rfl | hz'
      · exact not_lt.mp hle
      · exact hy z hz'

theorem sortScoredDesc_sorted {α : Type} (l : List (α × ℚ)) :
    (sortScoredDesc l).Pairwise (fun a b => b.2 ≤ a.2) := by
  rw [sortScoredDesc]
  have : ∀ acc : List (α × ℚ), acc.Pairwise (fun a b => b.2 ≤ a.2) →
      (l.foldl (fun acc x => insertScoredDesc x acc) acc).Pairwise
        (fun a b => b.2 ≤ a.2) := by
    induction l with
    | nil => intro acc h; exact h
    | cons x xs ih =>
      intro acc h
      exact ih _ (insertScoredDesc_sorted x acc h)
  exact this [] (by simp)

/-! ### Evaluation lemmas: domain scores through `Nat` counts

`Rat` arithmetic does not reduce in the kernel, so concrete runs of the
analyzer go through `totalKwCount`, which lives in `Nat`. -/

theorem foldl_add_shift {β : Type} (f : β → Nat) (l : List β) (init : Nat) :
    l.foldl (fun a x => a + f x) init =
      init + l.foldl (fun a x => a + f x) 0 := by
  induction l generalizing init with
  | nil => simp
  | cons x xs ih =>
    simp only [List.foldl_cons]
    rw [ih (init + f x), ih (0 + f x)]
    omega

theorem foldl_count_mul (kws : List String) (jl : String) (w : ℚ) (init : ℚ) :
    kws.foldl (fun a kw => a + (kwCountWB kw jl : ℚ) * w) init =
      init + (totalKwCount kws jl : ℚ) * w := by
  induction kws generalizing init with
  | nil => simp [totalKwCount]
  | cons k ks ih =>
    simp only [List.foldl_cons, totalKwCount]
    rw [ih (init + (kwCountWB k jl : ℚ) * w)]
    rw [show List.foldl (fun a kw => a + kwCountWB kw jl)
        (0 + kwCountWB k jl) ks = (0 + kwCountWB k jl) + totalKwCount ks jl
      from foldl_add_shift (fun kw => kwCountWB kw jl) ks (0 + kwCountWB k jl)]
    simp only [totalKwCount]
    push_cast
    ring

theorem analyzeDomains_eq_counts (domains : List (String × List String))
    (jobLower : String) (w : ℚ) (hw : 0 < w) :
    analyzeDomains domains jobLower w = domains.filterMap (fun p =>
      if 0 < totalKwCount p.2 jobLower then
        some (p.1, (totalKwCount p.2 jobLower : ℚ) * w)
      else none) := by
  unfold analyzeDomains
  apply List.filterMap_congr
  intro p _
  rw [foldl_count_mul, zero_add]
  have hiff : ((totalKwCount p.2 jobLower : ℚ) * w > 0) ↔
      0 < totalKwCount p.2 jobLower := by
    constructor
    · intro h
      by_contra hc
      push_neg at hc
      have h0 : totalKwCount p.2 jobLower = 0 := Nat.le_zero.mp hc
      rw [h0] at h
      simp at h
    · intro h
      have h0 : (0:ℚ) < (totalKwCount p.2 jobLower : ℚ) := by exact_mod_cast h
      exact mul_pos h0 hw
  simp only [hiff]

/-! ### Evaluation of the analyzer and scorer on the C1 scenario -/

theorem c1_domains : analyzeDomains techDomains "developer" 1 = [] := by
  rw [analyzeDomains_eq_counts techDomains "developer" 1 (by norm_num)]
  rfl

theorem c1_fd : analyzeFocusAndDomains (classifyJobRole (pyLower "developer"))
    (pyLower "developer") =
    ("technical", analyzeDomains techDomains "developer" 1, []) := rfl

theorem c1_ja : analyzeJobRequirements "developer" = c1JA := by
  simp only [analyzeJobRequirements, c1_fd, c1_domains]
  rfl

theorem c1_score_boost (n : String)
    (h1 : ["network", "security", "system", "server", "administration"].any
      (fun t => pyIn t (pyLower n)) = true)
    (h2 : ["active directory", "powershell", "windows", "linux"].any
      (fun t => pyIn t (pyLower n)) = false)
    (h3 : pyIn "technical support" (pyLower n) = false) :
    scoreSkillRelevance (c1Skill n) c1JA = 7/10 := by
  norm_num [scoreSkillRelevance, scoreTechnicalSkill, c1Skill, c1JA, h1, h2, h3,
    show (("technical" : String) = "business") = False from eq_false (by decide),
    show (("technical_it" : String) = "technical_it") = True from eq_true rfl,
    show (("technical" : String) = "technical") = True from eq_true rfl]

theorem c1_score_zero (n : String)
    (h1 : ["network", "security", "system", "server", "administration"].any
      (fun t => pyIn t (pyLower n)) = false)
    (h2 : ["active directory", "powershell", "windows", "linux"].any
      (fun t => pyIn t (pyLower n)) = false)
    (h3 : pyIn "technical support" (pyLower n) = false) :
    scoreSkillRelevance (c1Skill n) c1JA = 0 := by
  norm_num [scoreSkillRelevance, scoreTechnicalSkill, c1Skill, c1JA, h1, h2, h3,
    show (("technical" : String) = "business") = False from eq_false (by decide),
    show (("technical_it" : String) = "technical_it") = True from eq_true rfl,
    show (("technical" : String) = "technical") = True from eq_true rfl]

theorem c1_qual :
    ((c1Store.skills.map (fun p =>
      (p.2, scoreSkillRelevance p.2 (analyzeJobRequirements "developer")))).filter
        (fun q => q.2 > 1/10)) =
      [(c1Skill "network 1", 7/10), (c1Skill "network 2", 7/10),
       (c1Skill "network 3", 7/10), (c1Skill "network 4", 7/10)] := by
  rw [c1_ja]
  norm_num [c1Store, List.map_cons, List.filter,
    c1_score_boost "network 1" rfl rfl rfl, c1_score_boost "network 2" rfl rfl rfl,
    c1_score_boost "network 3" rfl rfl rfl, c1_score_boost "network 4" rfl rfl rfl,
    c1_score_zero "qq1" rfl rfl rfl, c1_score_zero "qq2" rfl rfl rfl,
    c1_score_zero "qq3" rfl rfl rfl, c1_score_zero "qq4" rfl rfl rfl,
    c1_score_zero "qq5" rfl rfl rfl, c1_score_zero "qq6" rfl rfl rfl]

theorem c1_select :
    selectSkills c1Store.skills (analyzeJobRequirements "developer") 3 =
      [(c1Skill "network 1", 7/10), (c1Skill "network 2", 7/10),
       (c1Skill "network 3", 7/10)] := by
  rw [selectSkills, c1_qual]
  norm_num [sortScoredDesc, insertScoredDesc, List.foldl]

/-! ## Claim C1 — skill selection under `max_skills` -/

/-- C1, counterexample.  Against the job description `"developer"`, the
10-skill store `c1Store` has exactly 4 skills scoring strictly above the
`0.1` floor, yet `get_relevant_memories` with `max_skills = 3` returns
only 3 skills — the list is truncated to `max_skills`, not "exactly those
4 skills" as the claim states. -/
theorem C1_counterexample :
    c1Store.skills.length = 10 ∧
    ((c1Store.skills.map (fun p =>
      (p.2, scoreSkillRelevance p.2 (analyzeJobRequirements "developer")))).filter
        (fun q => q.2 > 1/10)).length = 4 ∧
    (getRelevantMemories c1Store "developer" 3 5).relevant_skills.length = 3 := by
  refine ⟨rfl, ?_, ?_⟩
  · rw [c1_qual]
    rfl
  · rw [show (getRelevantMemories c1Store "developer" 3 5).relevant_skills =
        (selectSkills c1Store.skills (analyzeJobRequirements "developer")
          3).map Prod.fst from rfl, c1_select]
    rfl

/-- C1, amended: against a store holding 10 skills of which exactly 4
score strictly above the `0.1` floor, a Memory Selector call with
`max_skills = 3` returns not those 4 skills but the 3 highest-scoring of
them — `max_skills` truncates the floor-filtered list.  The returned list
is sorted descending by score, and every omitted qualifying skill scores
no higher than every returned one. -/
theorem C1_top_skills (store : MemoryStore) (jd : String)
    (hq : ((store.skills.map (fun p =>
        (p.2, scoreSkillRelevance p.2 (analyzeJobRequirements jd)))).filter
          (fun q => q.2 > 1/10)).length = 4)
    (_hn : store.skills.length = 10) :
    (getRelevantMemories store jd 3 5).relevant_skills =
      (selectSkills store.skills (analyzeJobRequirements jd) 3).map
        Prod.fst ∧
    (selectSkills store.skills (analyzeJobRequirements jd) 3).length = 3 ∧
    (selectSkills store.skills (analyzeJobRequirements jd) 3).Pairwise
      (fun a b => b.2 ≤ a.2) ∧
    ∃ rest : List (SkillMemory × ℚ),
      ((selectSkills store.skills (analyzeJobRequirements jd) 3) ++
          rest).Perm
        ((store.skills.map (fun p =>
          (p.2, scoreSkillRelevance p.2 (analyzeJobRequirements jd)))).filter
            (fun q => q.2 > 1/10)) ∧
      ∀ x ∈ selectSkills store.skills (analyzeJobRequirements jd) 3,
        ∀ y ∈ rest, y.2 ≤ x.2 := by
  have hperm := sortScoredDesc_perm ((store.skills.map (fun p =>
    (p.2, scoreSkillRelevance p.2 (analyzeJobRequirements jd)))).filter
      (fun q => q.2 > 1/10))
  have hsorted := sortScoredDesc_sorted ((store.skills.map (fun p =>
    (p.2, scoreSkillRelevance p.2 (analyzeJobRequirements jd)))).filter
      (fun q => q.2 > 1/10))
  have hlen : (sortScoredDesc ((store.skills.map (fun p =>
      (p.2, scoreSkillRelevance p.2 (analyzeJobRequirements jd)))).filter
        (fun q => q.2 > 1/10))).length = 4 := by
    rw [hperm.length_eq, hq]
  refine ⟨rfl, ?_, ?_, ?_⟩
  · rw [selectSkills, List.length_take, hlen]
    decide
  · rw [selectSkills]
    exact hsorted.sublist (List.take_sublist 3 _)
  · refine ⟨(sortScoredDesc ((store.skills.map (fun p =>
      (p.2, scoreSkillRelevance p.2 (analyzeJobRequirements jd)))).filter
        (fun q => q.2 > 1/10))).drop 3, ?_, ?_⟩
    · rw [selectSkills, List.take_append_drop]
      exact hperm
    · intro x hx y hy
      rw [selectSkills] at hx
      have hsorted2 : ((sortScoredDesc ((store.skills.map (fun p =>
          (p.2, scoreSkillRelevance p.2 (analyzeJobRequirements jd)))).filter
            (fun q => q.2 > 1/10))).take 3 ++
          (sortScoredDesc ((store.skills.map (fun p =>
          (p.2, scoreSkillRelevance p.2 (analyzeJobRequirements jd)))).filter
            (fun q => q.2 > 1/10))).drop 3).Pairwise
          (fun a b => b.2 ≤ a.2) := by
        rw [List.take_append_drop]
        exact hsorted
      exact (List.pairwise_append.mp hsorted2).2.2 x hx y hy

/-- C1, witness: the amended theorem applied to the concrete 10-skill
store and the job description `"developer"`. -/
theorem C1_top_skills_witness :
    (selectSkills c1Store.skills (analyzeJobRequirements "developer")
      3).length = 3 :=
  (C1_top_skills c1Store "developer" (by rw [c1_qual]; rfl) rfl).2.1

/-! ## Claim C3 — event status computation -/

/-- C3, counterexample.  The claim states, among its cases, that the
computed status is `"completed"` whenever `now > end_date + 30 days`, with
no requirement that `now ≥ start_date`.  The code checks `now < start_date
− 7d` first: for an event whose stored `end_date` lies before its
`start_date` (start = day 100, end = day 0, swept at day 50) the condition
`now > end_date + 30d` holds yet the code returns `"upcoming"`, not
`"completed"`. -/
theorem C3_counterexample :
    ((0 : ℚ) + 30 < 50) ∧
    calculateEventStatus "prior" (some 100) (some 0) 50 = "upcoming" ∧
    calculateEventStatus "prior" (some 100) (some 0) 50 ≠ "completed" := by
  have h : calculateEventStatus "prior" (some 100) (some 0) 50 = "upcoming" := by
    simp only [calculateEventStatus]
    norm_num
  exact ⟨by norm_num, h, by rw [h]; decide⟩

/-- C3, amended: for every event with a known `start_date`, an optional
`end_date`, and a current time `now`, the computed status is: `"upcoming"`
if `now < start_date − 7d`; `"starting_soon"` if `start_date − 7d ≤ now <
start_date`; `"current"` if `now ≥ start_date` and (`end_date` absent or
`now ≤ end_date`); when additionally `now ≥ start_date`: `"recently_completed"`
if `end_date < now ≤ end_date + 30d` and `"completed"` if
`now > end_date + 30d`. -/
theorem C3_event_status_cases (stored : String) (s : ℚ) (eo : Option ℚ)
    (now : ℚ) :
    (now < s - 7 → calculateEventStatus stored (some s) eo now = "upcoming") ∧
    (s - 7 ≤ now → now < s →
      calculateEventStatus stored (some s) eo now = "starting_soon") ∧
    (s ≤ now → (eo = none ∨ ∃ e, eo = some e ∧ now ≤ e) →
      calculateEventStatus stored (some s) eo now = "current") ∧
    (∀ e, eo = some e → s ≤ now → e < now → now ≤ e + 30 →
      calculateEventStatus stored (some s) eo now = "recently_completed") ∧
    (∀ e, eo = some e → s ≤ now → e + 30 < now →
      calculateEventStatus stored (some s) eo now = "completed") := by
  refine ⟨?_, ?_, ?_, ?_, ?_⟩
  · intro h
    cases eo <;> simp only [calculateEventStatus] <;> rw [if_pos h]
  · intro h1 h2
    cases eo <;> simp only [calculateEventStatus] <;>
      rw [if_neg (not_lt.mpr (by linarith)), if_pos h2]
  · rintro h (rfl | ⟨e, rfl, he⟩)
    · simp only [calculateEventStatus]
      rw [if_neg (not_lt.mpr (by linarith)), if_neg (not_lt.mpr (by linarith))]
    · simp only [calculateEventStatus]
      rw [if_neg (not_lt.mpr (by linarith)), if_neg (not_lt.mpr (by linarith)),
        if_neg (not_lt.mpr (by linarith)), if_neg (not_lt.mpr (by linarith))]
  · rintro e rfl h1 h2 h3
    simp only [calculateEventStatus]
    rw [if_neg (not_lt.mpr (by linarith)), if_neg (not_lt.mpr (by linarith)),
      if_neg (not_lt.mpr (by linarith)), if_pos h2]
  · rintro e rfl h1 h2
    simp only [calculateEventStatus]
    rw [if_neg (not_lt.mpr (by linarith)), if_neg (not_lt.mpr (by linarith)),
      if_pos h2]

/-- C3, witness: an event starting at day 10 with end day 20, swept at day
2 (more than 7 days before the start), is `"upcoming"`. -/
theorem C3_event_status_cases_witness :
    calculateEventStatus "prior" (some 10) (some 20) 2 = "upcoming" :=
  (C3_event_status_cases "prior" 10 (some 20) 2).1 (by norm_num)

/-! ## Claim C9 — status is a pure function of the dates -/

/-- C9, counterexample.  The claim states that two events presented to the
status computation with equal `(start_date, end_date)` — each possibly
absent — always get the same computed status.  When `start_date` is
absent, the code returns the event's previously stored status unchanged,
so two events with no dates but different stored statuses compute
differently. -/
theorem C9_counterexample :
    calculateEventStatus "completed" none none 0 ≠
      calculateEventStatus "upcoming" none none 0 := by
  decide

/-- C9, amended: when `start_date` is known, the computed status depends
only on `(start_date, end_date, now)` plus the fixed buffer windows — in
particular not on the previously stored status; when `start_date` is
absent, the previously stored status is returned unchanged. -/
theorem C9_status_pure :
    (∀ (st₁ st₂ : String) (s : ℚ) (eo : Option ℚ) (now : ℚ),
      calculateEventStatus st₁ (some s) eo now =
        calculateEventStatus st₂ (some s) eo now) ∧
    (∀ (st : String) (eo : Option ℚ) (now : ℚ),
      calculateEventStatus st none eo now = st) := by
  exact ⟨fun _ _ _ _ _ => rfl, fun _ _ _ => rfl⟩

/-! ## Claim C8 — loader behavior on missing/corrupt store -/

/-- C8, counterexample.  The claim says every corrupt/unreadable persisted
file yields the empty default structure without raising.  The `except`
clause catches only `json.JSONDecodeError` and `FileNotFoundError`: a
persisted file whose bytes are not valid UTF-8 makes `json.load` raise
`UnicodeDecodeError`, which propagates out of the loader. -/
theorem C8_counterexample :
    loadMemory "2024-01-01T00:00:00" PersistedMemoryFile.undecodable =
      Except.error "UnicodeDecodeError" := rfl

/-- C8, amended: a missing file, or a file that reads as text but is not
valid JSON, makes the loader return the empty default memory structure
(empty skills, style-preference categories, temporal events, feedback
history, fresh metadata) without raising; a valid document is returned as
is.  A file whose raw bytes are not valid UTF-8, however, raises
`UnicodeDecodeError` out of the loader. -/
theorem C8_loader_defaults (now : String) (d : MemoryData) :
    loadMemory now PersistedMemoryFile.missing =
      Except.ok (defaultMemory now) ∧
    loadMemory now PersistedMemoryFile.malformed =
      Except.ok (defaultMemory now) ∧
    loadMemory now (PersistedMemoryFile.valid d) = Except.ok d ∧
    (defaultMemory now).skills = [] ∧
    (defaultMemory now).avoid_phrases = [] ∧
    (defaultMemory now).prefer_phrases = [] ∧
    (defaultMemory now).tone_preferences = [] ∧
    (defaultMemory now).structure_preferences = [] ∧
    (defaultMemory now).temporal_events = [] ∧
    (defaultMemory now).feedback_history = [] ∧
    (defaultMemory now).created = now ∧
    (defaultMemory now).total_interactions = 0 ∧
    (defaultMemory now).successful_generations = 0 :=
  ⟨rfl, rfl, rfl, rfl, rfl, rfl, rfl, rfl, rfl, rfl, rfl, rfl, rfl⟩

/-! ### Role-classification range lemmas -/

theorem foldl_max_choice_mem (p : String × Nat) (rest : List (String × Nat)) :
    rest.foldl (fun best q => if q.2 > best.2 then q else best) p = p ∨
      rest.foldl (fun best q => if q.2 > best.2 then q else best) p ∈ rest := by
  induction rest generalizing p with
  | nil => left; rfl
  | cons q qs ih =>
    simp only [List.foldl_cons]
    rcases ih (if q.2 > p.2 then q else p) with h | h
    · rw [h]
      split_ifs
      · right; exact List.mem_cons_self q qs
      · left; rfl
    · right; exact List.mem_cons_of_mem q h

theorem argmaxKey_mem (l : List (String × Nat)) (h : l ≠ []) :
    argmaxKey l ∈ l.map Prod.fst := by
  match l with
  | [] => exact absurd rfl h
  | p :: rest =>
    simp only [argmaxKey, List.map_cons]
    rcases foldl_max_choice_mem p rest with h1 | h1
    · rw [h1]; exact List.mem_cons_self _ _
    · exact List.mem_cons_of_mem _ (List.mem_map.mpr ⟨_, h1, rfl⟩)

theorem roleScoresBase_keys (jl : String) :
    (roleScoresBase jl).map Prod.fst =
      ["technical_it", "business_analyst", "finance", "project_management",
       "management"] := rfl

theorem bumpRole_keys (s : List (String × Nat)) (n : String) (d : Nat) :
    (bumpRole s n d).map Prod.fst = s.map Prod.fst := by
  simp only [bumpRole, List.map_map]
  apply List.map_congr_left
  intro p _
  by_cases h : p.1 = n <;> simp [h]

theorem argmax_roles_mem (A : List (String × Nat))
    (hA : A.map Prod.fst = ["technical_it", "business_analyst", "finance",
      "project_management", "management"]) :
    argmaxKey A ∈ ["technical_it", "business_analyst", "finance",
      "project_management", "management", "unknown"] := by
  have hne : A ≠ [] := by
    intro h
    rw [h] at hA
    simp at hA
  have hm := argmaxKey_mem A hne
  rw [hA] at hm
  simp only [List.mem_cons, List.mem_singleton] at hm ⊢
  tauto

theorem classifyJobRole_mem (jl : String) :
    classifyJobRole jl ∈ ["technical_it", "business_analyst", "finance",
      "project_management", "management", "unknown"] := by
  simp only [classifyJobRole]
  split_ifs <;>
    first
      | (apply argmax_roles_mem
         simp [bumpRole_keys, roleScoresBase_keys])
      | simp

theorem analyzeFocusAndDomains_fst_mem (rt jl : String) :
    (analyzeFocusAndDomains rt jl).1 ∈ ["business", "technical"] := by
  simp only [analyzeFocusAndDomains]
  split_ifs <;> simp

/-! ## Claim C6 — analyzer robustness and the empty job description -/

/-- C6: for every input string the analyzer returns a profile (the
embedding is a total function) whose `job_role_type`, `primary_focus` and
`experience_level` take one of the engine's finitely many values — in
particular they are never null; and on the empty job description the
profile has `job_role_type = "unknown"` and an empty required-skills
list.  (Regex semantics follow CPython ≥ 3.11, where the table keyword
`"c++"` compiles as a possessive repetition; on CPython ≤ 3.10 that
keyword would not compile.) -/
theorem C6_analyzer_robust :
    (∀ jd : String,
      (analyzeJobRequirements jd).job_role_type ∈
        ["technical_it", "business_analyst", "finance", "project_management",
         "management", "unknown"] ∧
      (analyzeJobRequirements jd).primary_focus ∈ ["business", "technical"] ∧
      (analyzeJobRequirements jd).experience_level ∈
        ["senior", "junior", "mid"]) ∧
    (analyzeJobRequirements "").job_role_type = "unknown" ∧
    (analyzeJobRequirements "").required_skills = [] := by
  refine ⟨?_, rfl, rfl⟩
  intro jd
  refine ⟨?_, ?_, ?_⟩
  · exact classifyJobRole_mem (pyLower jd)
  · exact analyzeFocusAndDomains_fst_mem (classifyJobRole (pyLower jd))
      (pyLower jd)
  · show (if ["senior", "lead", "principal", "architect"].any
        (fun t => pyIn t (pyLower jd)) then "senior"
      else if ["junior", "entry", "associate", "1-2 years"].any
        (fun t => pyIn t (pyLower jd)) then "junior"
      else "mid") ∈ ["senior", "junior", "mid"]
    split_ifs <;> simp

/-! ### Nonnegativity lemmas for the scoring pipeline -/

theorem le_foldl_of_step {β : Type} (f : ℚ → β → ℚ) (l : List β) (init : ℚ)
    (h : ∀ a : ℚ, ∀ x ∈ l, a ≤ f a x) : init ≤ l.foldl f init := by
  induction l generalizing init with
  | nil => exact le_refl init
  | cons x xs ih =>
    refine le_trans (h init x (List.mem_cons_self x xs)) ?_
    exact ih _ (fun a y hy => h a y (List.mem_cons_of_mem x hy))

theorem scoreBusinessSkill_nonneg (sn sc : String) (ja : JobAnalysis)
    (hbd : ∀ p ∈ ja.business_domains, 0 ≤ p.2) :
    0 ≤ scoreBusinessSkill sn sc ja := by
  simp only [scoreBusinessSkill]
  have hS : (0:ℚ) ≤ ja.business_domains.foldl (fun acc p =>
      ((List.lookup p.1 businessDomains).getD []).foldl (fun a kw =>
        if pyIn kw sn || pyIn kw sc then a + min (p.2 / 10) (8/10) else a)
          acc) 0 := by
    apply le_foldl_of_step
    intro acc p hp
    apply le_foldl_of_step
    intro a kw _
    split_ifs
    · have : (0:ℚ) ≤ min (p.2 / 10) (8/10) :=
        le_min (div_nonneg (hbd p hp) (by norm_num)) (by norm_num)
      linarith
    · exact le_refl a
  split_ifs
  · exact le_trans (by norm_num) (le_max_right _ (1/10))
  · exact hS

theorem scoreTechnicalSkill_nonneg (sn sc : String) (ja : JobAnalysis)
    (htd : ∀ p ∈ ja.tech_domains, 0 ≤ p.2) :
    0 ≤ scoreTechnicalSkill sn sc ja := by
  simp only [scoreTechnicalSkill]
  have hS : (0:ℚ) ≤ ja.tech_domains.foldl (fun acc p =>
      ((List.lookup p.1 techDomains).getD []).foldl (fun a kw =>
        if pyIn kw sn || pyIn kw sc then a + min (p.2 / 10) (8/10) else a)
          acc) 0 := by
    apply le_foldl_of_step
    intro acc p hp
    apply le_foldl_of_step
    intro a kw _
    split_ifs
    · have : (0:ℚ) ≤ min (p.2 / 10) (8/10) :=
        le_min (div_nonneg (htd p hp) (by norm_num)) (by norm_num)
      linarith
    · exact le_refl a
  split_ifs
  all_goals linarith

theorem analyzeDomains_nonneg (domains : List (String × List String))
    (jl : String) (w : ℚ) :
    ∀ p ∈ analyzeDomains domains jl w, 0 ≤ p.2 := by
  intro p hp
  simp only [analyzeDomains, List.mem_filterMap] at hp
  obtain ⟨q, _, hq⟩ := hp
  split_ifs at hq with hpos
  obtain rfl := Option.some_injective _ hq
  exact le_of_lt hpos

theorem analyzeJobRequirements_wf (jd : String) :
    (analyzeJobRequirements jd).wf := by
  have hfd : ∀ rt jl, (∀ p ∈ (analyzeFocusAndDomains rt jl).2.1, 0 ≤ p.2) ∧
      (∀ p ∈ (analyzeFocusAndDomains rt jl).2.2, 0 ≤ p.2) := by
    intro rt jl
    simp only [analyzeFocusAndDomains]
    split_ifs <;>
      exact ⟨fun p hp => by
          first
            | exact analyzeDomains_nonneg _ _ _ p hp
            | simp at hp,
        fun p hp => by
          first
            | exact analyzeDomains_nonneg _ _ _ p hp
            | simp at hp⟩
  exact ⟨(hfd _ _).1, (hfd _ _).2⟩

/-- C4: for every skill record and every job requirement profile whose
domain scores are nonnegative — an invariant the analyzer always
establishes, proved as the second conjunct — the simple engine's skill
relevance score lies in `[0, 1]`; scoring the same pair twice yields an
identical result (the embedded scorer is a pure function); and the
advanced engine's comprehensive `final_score` lies in `[0, 1]`
unconditionally, with the same determinism. -/
theorem C4_score_in_unit_interval :
    (∀ (skill : SkillMemory) (ja : JobAnalysis), ja.wf →
      0 ≤ scoreSkillRelevance skill ja ∧ scoreSkillRelevance skill ja ≤ 1) ∧
    (∀ jd : String, (analyzeJobRequirements jd).wf) ∧
    (∀ (skill : SkillMemory) (ja : JobAnalysis),
      scoreSkillRelevance skill ja = scoreSkillRelevance skill ja) ∧
    (∀ (skill : SkillMemory) (jar : JobAnalysisResult),
      0 ≤ (scoreSkillComprehensive skill jar).final_score ∧
      (scoreSkillComprehensive skill jar).final_score ≤ 1 ∧
      scoreSkillComprehensive skill jar = scoreSkillComprehensive skill jar) := by
  refine ⟨?_, analyzeJobRequirements_wf, fun _ _ => rfl, ?_⟩
  · intro skill ja hwf
    obtain ⟨htd, hbd⟩ := hwf
    constructor
    · simp only [scoreSkillRelevance]
      apply le_min ?_ (by norm_num)
      have h1 : (0:ℚ) ≤ ja.required_skills.foldl (fun a rs =>
          if pyIn rs (pyLower skill.skill_name) ||
              pyIn rs (pyLower skill.context) then a + 8/10 else a) 0 := by
        apply le_foldl_of_step
        intro a rs _
        split_ifs <;> linarith
      have h2 : ja.required_skills.foldl (fun a rs =>
          if pyIn rs (pyLower skill.skill_name) ||
              pyIn rs (pyLower skill.context) then a + 8/10 else a) (0:ℚ) ≤
          ja.preferred_skills.foldl (fun a ps =>
            if pyIn ps (pyLower skill.skill_name) ||
                pyIn ps (pyLower skill.context) then a + 5/10 else a)
            (ja.required_skills.foldl (fun a rs =>
              if pyIn rs (pyLower skill.skill_name) ||
                  pyIn rs (pyLower skill.context) then a + 8/10 else a)
              (0:ℚ)) := by
        refine le_foldl_of_step _ _ _ ?_
        intro a ps _
        split_ifs <;> linarith
      have hb := scoreBusinessSkill_nonneg (pyLower skill.skill_name)
        (pyLower skill.context) ja hbd
      have ht := scoreTechnicalSkill_nonneg (pyLower skill.skill_name)
        (pyLower skill.context) ja htd
      split_ifs
      all_goals nlinarith
    · simp only [scoreSkillRelevance]
      exact min_le_right _ 1
  · intro skill jar
    refine ⟨?_, ?_, rfl⟩
    · simp only [scoreSkillComprehensive]
      exact le_max_left 0 _
    · simp only [scoreSkillComprehensive]
      exact max_le (by norm_num) (min_le_left 1 _)

/-- C4, witness: the bounds instantiated at a concrete skill and
profile. -/
theorem C4_score_in_unit_interval_witness :
    0 ≤ scoreSkillRelevance (c1Skill "sql") c1JA ∧
    scoreSkillRelevance (c1Skill "sql") c1JA ≤ 1 :=
  C4_score_in_unit_interval.1 (c1Skill "sql") c1JA
    ⟨by simp [c1JA], by simp [c1JA]⟩

/-! ## Claim C5 — the layered semantic-similarity function -/

/-- C5: for every pair of term strings the semantic-similarity function
returns `1.0` on exact (lower-cased, stripped) match; `0.95` when both
normalize to the same term via the synonym table; `0.8` when either
normalized string contains the other; `0.7` when both map to the same
topic cluster; otherwise the token-set Jaccard similarity scaled by `0.6`
when that Jaccard exceeds `0.3`, else `0.0` — checked in that order (each
case carries the negations of the previous cases). -/
theorem C5_semantic_similarity_layers (a b : String) :
    (pyStrip (pyLower a) = pyStrip (pyLower b) →
      calculateSemanticSimilarity a b = 1) ∧
    (pyStrip (pyLower a) ≠ pyStrip (pyLower b) →
      synNormalize (pyStrip (pyLower a)) = synNormalize (pyStrip (pyLower b)) →
      calculateSemanticSimilarity a b = 19/20) ∧
    (pyStrip (pyLower a) ≠ pyStrip (pyLower b) →
      synNormalize (pyStrip (pyLower a)) ≠ synNormalize (pyStrip (pyLower b)) →
      (pyIn (pyStrip (pyLower a)) (pyStrip (pyLower b)) = true ∨
       pyIn (pyStrip (pyLower b)) (pyStrip (pyLower a)) = true) →
      calculateSemanticSimilarity a b = 4/5) ∧
    (pyStrip (pyLower a) ≠ pyStrip (pyLower b) →
      synNormalize (pyStrip (pyLower a)) ≠ synNormalize (pyStrip (pyLower b)) →
      pyIn (pyStrip (pyLower a)) (pyStrip (pyLower b)) = false →
      pyIn (pyStrip (pyLower b)) (pyStrip (pyLower a)) = false →
      (∃ c, findCluster (pyStrip (pyLower a)) = some c ∧
            findCluster (pyStrip (pyLower b)) = some c) →
      calculateSemanticSimilarity a b = 7/10) ∧
    (pyStrip (pyLower a) ≠ pyStrip (pyLower b) →
      synNormalize (pyStrip (pyLower a)) ≠ synNormalize (pyStrip (pyLower b)) →
      pyIn (pyStrip (pyLower a)) (pyStrip (pyLower b)) = false →
      pyIn (pyStrip (pyLower b)) (pyStrip (pyLower a)) = false →
      (¬ ∃ c, findCluster (pyStrip (pyLower a)) = some c ∧
              findCluster (pyStrip (pyLower b)) = some c) →
      calculateSemanticSimilarity a b =
        (if jaccardTokens (pyStrip (pyLower a)) (pyStrip (pyLower b)) > 3/10
         then jaccardTokens (pyStrip (pyLower a)) (pyStrip (pyLower b)) * (6/10)
         else 0)) := by
  refine ⟨?_, ?_, ?_, ?_, ?_⟩
  · intro h1
    simp only [calculateSemanticSimilarity]
    rw [if_pos h1]
  · intro h1 h2
    simp only [calculateSemanticSimilarity]
    rw [if_neg h1, if_pos h2]
  · intro h1 h2 h3
    simp only [calculateSemanticSimilarity]
    rw [if_neg h1, if_neg h2, if_pos (by
      rcases h3 with h | h <;> simp [h])]
  · intro h1 h2 h3 h4 h5
    obtain ⟨c, hca, hcb⟩ := h5
    simp only [calculateSemanticSimilarity]
    rw [if_neg h1, if_neg h2, if_neg (by simp [h3, h4]),
      if_pos (by simp [hca, hcb])]
  · intro h1 h2 h3 h4 h5
    simp only [calculateSemanticSimilarity]
    rw [if_neg h1, if_neg h2, if_neg (by simp [h3, h4]),
      if_neg (by
        intro hcl
        obtain ⟨hsa, hsb, hse⟩ := hcl
        obtain ⟨ca, hca⟩ := Option.isSome_iff_exists.mp hsa
        obtain ⟨cb, hcb⟩ := Option.isSome_iff_exists.mp hsb
        exact h5 ⟨ca, hca, by rw [hcb]; rw [hca, hcb] at hse; exact hse.symm ▸ rfl⟩)]
    by_cases hst : 0 < ((wordTokens (pyStrip (pyLower a))).toFinset).card
    · by_cases hrt : 0 < ((wordTokens (pyStrip (pyLower b))).toFinset).card
      · rw [if_pos ⟨hst, hrt⟩]
        have hu : 0 < ((wordTokens (pyStrip (pyLower a))).toFinset ∪
            (wordTokens (pyStrip (pyLower b))).toFinset).card := by
          apply Finset.card_pos.mpr
          obtain ⟨x, hx⟩ := Finset.card_pos.mp hst
          exact ⟨x, Finset.mem_union_left _ hx⟩
        simp only [jaccardTokens]
        rw [if_pos hu]
        have hq : ((0:ℚ) < (((wordTokens (pyStrip (pyLower a))).toFinset ∪
            (wordTokens (pyStrip (pyLower b))).toFinset).card : ℚ)) := by
          exact_mod_cast hu
        rw [if_pos hq]
      · rw [if_neg (by simp [hrt])]
        have hempty : (wordTokens (pyStrip (pyLower b))).toFinset = ∅ := by
          rw [← Finset.card_eq_zero]
          omega
        have hjz : jaccardTokens (pyStrip (pyLower a)) (pyStrip (pyLower b)) = 0 := by
          simp only [jaccardTokens, hempty]
          split_ifs with hu
          · simp
          · rfl
        rw [hjz]
        norm_num
    · rw [if_neg (by simp [hst])]
      have hempty : (wordTokens (pyStrip (pyLower a))).toFinset = ∅ := by
        rw [← Finset.card_eq_zero]
        omega
      have hjz : jaccardTokens (pyStrip (pyLower a)) (pyStrip (pyLower b)) = 0 := by
        simp only [jaccardTokens, hempty]
        split_ifs with hu
        · simp
        · rfl
      rw [hjz]
      norm_num

/-- C5, witness: the exact-match layer instantiated at `"SQL "` and
`"sql"`. -/
theorem C5_semantic_similarity_layers_witness :
    calculateSemanticSimilarity "SQL " "sql" = 1 :=
  (C5_semantic_similarity_layers "SQL " "sql").1 rfl

end CoverLetterGPT
